import Mathlib

/-!
Verification of the Botaniq identification-result logic.

This file gives a shallow embedding of the result-normalization and
candidate-selection logic of the repository (`app/details.jsx` and
`app/result.jsx`) and proves the specified properties about it.

JSON values flowing through the code are modeled by the inductive type
`Json`; JavaScript numbers are modeled as `Option ℚ` where `none` stands
for `NaN` (JSON itself cannot contain `NaN`, but the `Number(...)`
coercion in the code can produce one).  Machine floating point is modeled
by exact rationals: every concrete constant appearing in the code
(`0.25`, `0.55`, `0.5`) is exactly representable, and the code performs
only additions, halving and comparisons on values in `[0,1]`.
-/

/-- A JSON value as produced by `JSON.parse` on an API response body. -/
inductive Json where
  | null
  | bool (b : Bool)
  | num (q : ℚ)
  | str (s : String)
  | arr (elems : List Json)
  | obj (fields : List (String × Json))
  deriving Repr

mutual

/-- Structural equality on `Json`.  This models JavaScript `===` on the
primitive values (strings, numbers, booleans, `null`) that actually occur
as candidate labels in the app. -/
def Json.beq : Json → Json → Bool
  | .null, .null => true
  | .bool a, .bool b => a == b
  | .num a, .num b => a == b
  | .str a, .str b => a == b
  | .arr xs, .arr ys => Json.beqList xs ys
  | .obj xs, .obj ys => Json.beqFields xs ys
  | _, _ => false

/-- Pointwise `Json.beq` on lists. -/
def Json.beqList : List Json → List Json → Bool
  | [], [] => true
  | x :: xs, y :: ys => Json.beq x y && Json.beqList xs ys
  | _, _ => false

/-- Pointwise `Json.beq` on association lists. -/
def Json.beqFields : List (String × Json) → List (String × Json) → Bool
  | [], [] => true
  | (k1, v1) :: xs, (k2, v2) :: ys => k1 == k2 && Json.beq v1 v2 && Json.beqFields xs ys
  | _, _ => false

end

instance : BEq Json := ⟨Json.beq⟩

mutual

theorem Json.beq_iff : ∀ a b : Json, Json.beq a b = true ↔ a = b
  | .null, .null => by simp [Json.beq]
  | .bool a, .bool b => by simp [Json.beq]
  | .num a, .num b => by simp [Json.beq]
  | .str a, .str b => by simp [Json.beq]
  | .arr xs, .arr ys => by simp [Json.beq, Json.beqList_iff xs ys]
  | .obj xs, .obj ys => by simp [Json.beq, Json.beqFields_iff xs ys]
  | .null, .bool _ | .null, .num _ | .null, .str _ | .null, .arr _ | .null, .obj _
  | .bool _, .null | .bool _, .num _ | .bool _, .str _ | .bool _, .arr _ | .bool _, .obj _
  | .num _, .null | .num _, .bool _ | .num _, .str _ | .num _, .arr _ | .num _, .obj _
  | .str _, .null | .str _, .bool _ | .str _, .num _ | .str _, .arr _ | .str _, .obj _
  | .arr _, .null | .arr _, .bool _ | .arr _, .num _ | .arr _, .str _ | .arr _, .obj _
  | .obj _, .null | .obj _, .bool _ | .obj _, .num _ | .obj _, .str _ | .obj _, .arr _ => by
    simp [Json.beq]

theorem Json.beqList_iff : ∀ xs ys : List Json, Json.beqList xs ys = true ↔ xs = ys
  | [], [] => by simp [Json.beqList]
  | x :: xs, y :: ys => by
    simp [Json.beqList, Json.beq_iff x y, Json.beqList_iff xs ys]
  | [], _ :: _ => by simp [Json.beqList]
  | _ :: _, [] => by simp [Json.beqList]

theorem Json.beqFields_iff : ∀ xs ys : List (String × Json), Json.beqFields xs ys = true ↔ xs = ys
  | [], [] => by simp [Json.beqFields]
  | (k1, v1) :: xs, (k2, v2) :: ys => by
    simp [Json.beqFields, Json.beq_iff v1 v2, Json.beqFields_iff xs ys, and_assoc]
  | [], _ :: _ => by simp [Json.beqFields]
  | _ :: _, [] => by simp [Json.beqFields]

end

instance : LawfulBEq Json where
  eq_of_beq h := (Json.beq_iff _ _).mp h
  rfl := (Json.beq_iff _ _).mpr rfl

instance : DecidableEq Json := fun a b =>
  decidable_of_iff (Json.beq a b = true) (Json.beq_iff a b)

/-- JavaScript truthiness of a JSON value: `null`, `false`, `0`, and `""`
are falsy; every array and object is truthy.  (JSON values cannot be
`NaN` or `undefined`; absence is modeled by `Option` at use sites.) -/
def jsTruthy : Json → Bool
  | .null => false
  | .bool b => b
  | .num q => q != 0
  | .str s => !s.isEmpty
  | .arr _ => true
  | .obj _ => true

/-- Truthiness of a possibly-undefined value (`none` = `undefined`). -/
def jsTruthyOpt : Option Json → Bool
  | none => false
  | some j => jsTruthy j

/-- Property access `j[k]` on a JSON value: a field lookup on objects
(`JSON.parse` keeps the last occurrence of a duplicated key, hence the
`reverse`), `undefined` (`none`) on every non-object. -/
def getField (j : Json) (k : String) : Option Json :=
  match j with
  | .obj kvs => (kvs.reverse.find? (fun p => p.1 == k)).map (fun p => p.2)
  | _ => none

/-- Optional chaining `v?.k`: short-circuits to `undefined` when `v` is
`undefined` or `null`, otherwise accesses the property. -/
def optChain (v : Option Json) (k : String) : Option Json :=
  match v with
  | none => none
  | some .null => none
  | some j => getField j k

/-- Collapse a nullish value (`undefined` or `null`) to `none`; this is
the guard of the `??` operator. -/
def denull : Option Json → Option Json
  | some .null => none
  | x => x

/-- The JavaScript nullish-coalescing operator `v ?? d`. -/
def nullishCoalesce (v : Option Json) (d : Json) : Json :=
  match denull v with
  | some j => j
  | none => d

/-- The JavaScript or-default idiom `v || d`: the left value if truthy,
otherwise the default. -/
def jsOr (v : Option Json) (d : Json) : Json :=
  match v with
  | some j => if jsTruthy j then j else d
  | none => d

/-- Whitespace trimmed by `Number(string)`.  (JavaScript also trims a few
Unicode space characters that cannot arise in the claims; they are
omitted.) -/
def jsWhitespace (c : Char) : Bool :=
  c == ' ' || c == '\t' || c == '\n' || c == '\r' || c == '\x0b' || c == '\x0c'

/-- Numeric value of a list of decimal digit characters. -/
def natOfDigits (ds : List Char) : ℕ :=
  ds.foldl (fun n c => n * 10 + (c.toNat - 48)) 0

/-- Parse the exponent part following `e`/`E` in a decimal literal:
an optional sign and a nonempty digit run. -/
def parseExpPart (cs : List Char) : Option ℤ :=
  let signed : ℤ × List Char :=
    match cs with
    | '+' :: t => (1, t)
    | '-' :: t => (-1, t)
    | t => (1, t)
  let ds := signed.2.takeWhile Char.isDigit
  let r := signed.2.dropWhile Char.isDigit
  if ds.isEmpty || !r.isEmpty then none else some (signed.1 * natOfDigits ds)

/-- Parse an unsigned decimal literal `digits [. digits] [e exp]` with at
least one digit, as `Number(string)` accepts.  (Hexadecimal, binary and
`Infinity` forms are omitted from the model; no claim exercises them.) -/
def parseUnsigned (cs : List Char) : Option ℚ :=
  let ip := cs.takeWhile Char.isDigit
  let r1 := cs.dropWhile Char.isDigit
  let fracRest : List Char × List Char :=
    match r1 with
    | '.' :: t => (t.takeWhile Char.isDigit, t.dropWhile Char.isDigit)
    | _ => ([], r1)
  let fp := fracRest.1
  let r2 := fracRest.2
  if ip.isEmpty && fp.isEmpty then none
  else
    let base : ℚ := (natOfDigits ip : ℚ) + (natOfDigits fp : ℚ) / 10 ^ fp.length
    match r2 with
    | [] => some base
    | c :: t =>
      if c == 'e' || c == 'E' then
        match parseExpPart t with
        | some e => some (base * 10 ^ e)
        | none => none
      else none

/-- Parse an optionally signed decimal literal. -/
def parseSignedChars (cs : List Char) : Option ℚ :=
  match cs with
  | '+' :: t => parseUnsigned t
  | '-' :: t => (parseUnsigned t).map (fun q => -q)
  | t => parseUnsigned t

/-- `Number(string)`: trim whitespace, the empty string is `0`, otherwise
parse a signed decimal literal; anything else is `NaN` (`none`). -/
def parseNumberString (s : String) : Option ℚ :=
  let cs := ((s.toList.dropWhile jsWhitespace).reverse.dropWhile jsWhitespace).reverse
  if cs.isEmpty then some 0 else parseSignedChars cs

/-- The JavaScript `Number(...)` coercion on a JSON value; `none` is
`NaN`.  (A non-empty array actually coerces through its joined string
form, e.g. `Number(["5"]) = 5`; that corner is modeled as `NaN` since no
claim exercises arrays or objects in numeric position.) -/
def jsNumber : Json → Option ℚ
  | .null => some 0
  | .bool b => some (if b then 1 else 0)
  | .num q => some q
  | .str s => parseNumberString s
  | .arr [] => some 0
  | .arr (_ :: _) => none
  | .obj _ => none

/-- One mapped identification suggestion, as built by `identify` in
`app/details.jsx` (lines 140-147):
`{ label: s?.name || "Unknown", sci: s?.name,
   confidence: Number(s?.probability ?? 0), details: s?.details || null,
   gallery: (s?.similar_images || []).map((img) => img?.url).filter(Boolean) }`.
`confidence` is a JavaScript number, so `Option ℚ` with `none` = `NaN`. -/
structure Candidate where
  label : Json
  sci : Option Json
  confidence : Option ℚ
  details : Json
  gallery : List Json
  deriving Repr, DecidableEq

/-- The gallery of a raw suggestion:
`(s?.similar_images || []).map((img) => img?.url).filter(Boolean)`.
Entries whose `url` is absent or falsy are dropped.  (If
`similar_images` is a truthy non-array the real code would throw a
`TypeError` from `.map`; that unreachable-for-API-data corner is modeled
as an empty gallery and decides no claim.) -/
def galleryOf (s : Json) : List Json :=
  match jsOr (optChain (some s) "similar_images") (Json.arr []) with
  | .arr imgs =>
    (imgs.map (fun img => optChain (some img) "url")).filterMap
      (fun o => match o with
        | some j => if jsTruthy j then some j else none
        | none => none)
  | _ => []

/-- Map one raw suggestion to a `Candidate` (`app/details.jsx` lines
140-147; `app/result.jsx` lines 116-121 applies the identical
`Number(s?.probability ?? 0)` coercion). -/
def mapSuggestion (s : Json) : Candidate :=
  { label := jsOr (optChain (some s) "name") (Json.str "Unknown")
  , sci := optChain (some s) "name"
  , confidence := jsNumber (nullishCoalesce (optChain (some s) "probability") (Json.num 0))
  , details := jsOr (optChain (some s) "details") Json.null
  , gallery := galleryOf s }

/-- The sort key used by the comparator
`(a, b) => (b.confidence || 0) - (a.confidence || 0)`
(`app/details.jsx` line 148): `x.confidence || 0` replaces the falsy
numbers — `0` and `NaN` — by `0`, which on our model is `Option.getD 0`. -/
def confKey (c : Candidate) : ℚ :=
  c.confidence.getD 0

/-- Insert a candidate into an already sorted (descending by `confKey`)
list, before the first element of not-larger key.  Processing the mapped
list front to back with this insertion computes exactly the stable
descending sort that `Array.prototype.sort` (stable per ES2019) performs
with the consistent comparator above. -/
def insertDesc (x : Candidate) : List Candidate → List Candidate
  | [] => [x]
  | y :: ys => if confKey y ≤ confKey x then x :: y :: ys else y :: insertDesc x ys

/-- Stable descending sort by `confKey`, modeling
`.sort((a, b) => (b.confidence || 0) - (a.confidence || 0))`. -/
def sortCandidates : List Candidate → List Candidate
  | [] => []
  | x :: xs => insertDesc x (sortCandidates xs)

/-- The screen's result state: the sorted suggestions (`ordered`) and
which one is currently shown (`currentIndex`). -/
structure ResultSet where
  ordered : List Candidate
  currentIndex : ℕ
  deriving Repr, DecidableEq

/-- The captured-photo fallback (`app/details.jsx` line 151):
`if (!mapped[0].gallery?.length && uri) mapped[0].gallery = [String(uri)]`.
`uri` is the route parameter (`none` = `undefined`); it is truthy when it
is a non-empty string.  The substitution touches only the head
candidate's gallery. -/
def applyHeroFallback (uri : Option String) (l : List Candidate) : List Candidate :=
  match l, uri with
  | c :: rest, some s =>
    if c.gallery.isEmpty && !s.isEmpty then { c with gallery := [Json.str s] } :: rest
    else c :: rest
  | l, _ => l

/-- Build the `ResultSet` from the raw suggestion array: map, sort
descending, apply the hero-gallery fallback, show index 0
(`app/details.jsx` lines 140-154). -/
def buildResultSet (uri : Option String) (suggestions : List Json) : ResultSet :=
  { ordered := applyHeroFallback uri (sortCandidates (suggestions.map mapSuggestion))
  , currentIndex := 0 }

/-- First lookup path `full?.result?.classification?.suggestions`. -/
def suggestionsPathA (full : Json) : Option Json :=
  optChain (optChain (optChain (some full) "result") "classification") "suggestions"

/-- Second lookup path `full?.result?.is_plant?.classification?.suggestions`. -/
def suggestionsPathB (full : Json) : Option Json :=
  optChain (optChain (optChain (optChain (some full) "result") "is_plant") "classification")
    "suggestions"

/-- The suggestions value (`app/details.jsx` lines 127-130):
`full?.result?.classification?.suggestions ??
 full?.result?.is_plant?.classification?.suggestions ?? []`. -/
def lookupSuggestions (full : Json) : Json :=
  match denull (suggestionsPathA full) with
  | some v => v
  | none =>
    match denull (suggestionsPathB full) with
    | some v => v
    | none => Json.arr []

/-- Truthiness of `v.length` as read by `if (!suggestions.length)`:
array/string length, a `length` field on plain objects, `undefined`
(falsy) on everything else. -/
def jsLengthTruthy : Json → Bool
  | .arr xs => !xs.isEmpty
  | .str s => !s.isEmpty
  | .obj kvs => jsTruthyOpt (getField (.obj kvs) "length")
  | _ => false

/-- Outcome of the identification flow after a response was obtained:
`noMatches` is the non-error empty result (`setOrdered([])`,
`setCurrentIndex(0)` and the "No matches" alert, lines 132-138),
`results` carries the built `ResultSet`, and `failure` is a thrown error
caught by the screen's effect (the "Identification failed" alert). -/
inductive IdentifyOutcome where
  | noMatches
  | results (rs : ResultSet)
  | failure (msg : String)
  deriving Repr, DecidableEq

/-- Normalize a retrieved response into an outcome (`app/details.jsx`
lines 127-155).  A truthy-length non-array suggestions value would make
`.map` throw in the source; it is modeled as a `failure`. -/
def normalizeResponse (uri : Option String) (full : Json) : IdentifyOutcome :=
  let sugg := lookupSuggestions full
  if !jsLengthTruthy sugg then .noMatches
  else
    match sugg with
    | .arr xs => .results (buildResultSet uri xs)
    | _ => .failure "TypeError: suggestions.map is not a function"

/-- JavaScript `Array.prototype.findIndex`: the index of the first
element satisfying the predicate, `-1` if none does. -/
def jsFindIndex (p : α → Bool) : List α → ℤ
  | [] => -1
  | a :: l =>
    if p a then 0
    else if jsFindIndex p l < 0 then jsFindIndex p l else jsFindIndex p l + 1

/-- The promote interaction (`app/details.jsx` lines 185-192):
`const idx = ordered.findIndex((x) => x.label === option.label);
 if (idx >= 0) { setCurrentIndex(idx); ... }`.
Only `currentIndex` changes (the source additionally resets two
presentation-only flags, `showOthers` and `active`, outside this model);
with no match the state is untouched. -/
def promote (rs : ResultSet) (label : Json) : ResultSet :=
  let idx := jsFindIndex (fun c => c.label == label) rs.ordered
  if 0 ≤ idx then { rs with currentIndex := idx.toNat } else rs

/-- The watering range of a detail record: the API delivers
`watering: {min: _, max: _}` with numeric bounds, each possibly absent
(or `null`, which `?? 0.5` treats identically). -/
structure Watering where
  min : Option ℚ
  max : Option ℚ
  deriving Repr, DecidableEq

/-- The care-level badge (`app/details.jsx` lines 170-174):
`if (!d?.watering) return "Moderate to Care";
 const avg = ((d.watering.min ?? 0.5) + (d.watering.max ?? 0.5)) / 2;
 return avg <= 0.25 ? "Easy Care" : avg <= 0.55 ? "Moderate to Care" : "Thirsty";`
The argument is the detail record's watering range; `none` covers a
missing detail record as well as an absent or falsy `watering` field
(the `!d?.watering` guard). -/
def careBadge (watering : Option Watering) : String :=
  match watering with
  | none => "Moderate to Care"
  | some w =>
    let avg := (w.min.getD 0.5 + w.max.getD 0.5) / 2
    if avg ≤ 0.25 then "Easy Care"
    else if avg ≤ 0.55 then "Moderate to Care"
    else "Thirsty"

/-- The observable behavior of one creation `fetch`: an HTTP-ok response
whose body parsed as JSON, an HTTP-ok response whose body is not valid
JSON (`JSON.parse` throws; `errMsg` is the engine's `SyntaxError`
message), or a non-ok response with its status and body text. -/
inductive CreateResponse where
  | ok (parsed : Json)
  | invalidJson (errMsg : String)
  | httpError (status : ℕ) (body : String)
  deriving Repr, DecidableEq

/-- The error message built for a failed creation request
(`app/details.jsx` line 42): `` `Create ${res.status}: ${txt}` ``. -/
def createMessage (status : ℕ) (body : String) : String :=
  "Create " ++ toString status ++ ": " ++ body

/-- `createIdentification` (`app/details.jsx` lines 35-44) as a function
of the response the endpoint gives: the parsed body on success, a thrown
error message otherwise. -/
def createIdentification (resp : CreateResponse) : Except String Json :=
  match resp with
  | .ok j => .ok j
  | .invalidJson m => .error m
  | .httpError st body => .error (createMessage st body)

/-- Substring containment on character lists, scanning left to right. -/
def containsSub (needle : List Char) : List Char → Bool
  | [] => needle.isEmpty
  | c :: rest => needle.isPrefixOf (c :: rest) || containsSub needle rest

/-- JavaScript `hay.includes(needle)`. -/
def containsSubstr (needle hay : String) : Bool :=
  containsSub needle.toList hay.toList

/-- The data-URI re-encoding used by the retry
(`` `data:image/jpeg;base64,${base64}` ``). -/
def dataUriPrefixed (b64 : String) : String :=
  "data:image/jpeg;base64," ++ b64

/-- The creation phase of `identify` (`app/details.jsx` lines 113-122):
try the raw base64 payload; if the thrown message contains `"Create 400"`
retry exactly once with the data-URI payload; otherwise rethrow.  The
first component records every request body that was sent, in order;
`env` is the endpoint's behavior on a given `images` array. -/
def createPhase (env : List String → CreateResponse) (b64 : String) :
    List (List String) × Except String Json :=
  match createIdentification (env [b64]) with
  | .ok j => ([[b64]], .ok j)
  | .error msg =>
    if containsSubstr "Create 400" msg then
      ([[b64], [dataUriPrefixed b64]], createIdentification (env [dataUriPrefixed b64]))
    else ([[b64]], .error msg)

/-- The job token (`app/details.jsx` line 124):
`created?.id || created?.access_token`, with the follow-up retrieval
guarded by `token ? ... : ...`, i.e. a truthiness test.  `some` exactly
when a retrieval will be issued. -/
def extractToken (created : Json) : Option Json :=
  let tok := jsOr (optChain (some created) "id")
    (jsOr (optChain (some created) "access_token") Json.null)
  if jsTruthy tok then some tok else none

/-- The parameters of the detail-retrieval request
(`retrieveIdentification`): the token in the URL path, the `details`
query parameter, and the `language` query parameter. -/
structure RetrieveRequest where
  token : Json
  details : String
  language : String
  deriving Repr, DecidableEq

/-- The joined `details` list requested by both screens
(`app/details.jsx` lines 48-55, `app/result.jsx` lines 55-62). -/
def requestedDetails : String :=
  String.intercalate ","
    ["common_names", "url", "wiki_description", "edible_parts", "watering", "toxicity"]

/-- `retrieveIdentification` in `app/details.jsx` (lines 46-64) requests
`language: "en"`. -/
def detailsRetrieveRequest (tok : Json) : RetrieveRequest :=
  { token := tok, details := requestedDetails, language := "en" }

/-- `retrieveIdentification` in `app/result.jsx` (lines 53-82) requests
`language: "da"`. -/
def resultRetrieveRequest (tok : Json) : RetrieveRequest :=
  { token := tok, details := requestedDetails, language := "da" }

/-- The retrieval request issued by the details screen for a creation
response, when a token is present. -/
def detailsRetrievePhase (created : Json) : Option RetrieveRequest :=
  (extractToken created).map detailsRetrieveRequest

/-- The retrieval request issued by the result screen for a creation
response, when a token is present. -/
def resultRetrievePhase (created : Json) : Option RetrieveRequest :=
  (extractToken created).map resultRetrieveRequest

/-- The behavior of the retrieval `fetch` for a given request. -/
inductive RetrieveResponse where
  | ok (parsed : Json)
  | invalidJson (errMsg : String)
  | httpError (status : ℕ) (body : String)
  deriving Repr, DecidableEq

/-- A model environment: the remote endpoint's behavior for the two
calls the flow makes. -/
structure ApiEnv where
  create : List String → CreateResponse
  retrieve : RetrieveRequest → RetrieveResponse

/-- `retrieveIdentification`'s result (`app/details.jsx` lines 58-63):
the parsed body on HTTP success, a thrown message otherwise. -/
def retrieveIdentification (env : ApiEnv) (tok : Json) : Except String Json :=
  match env.retrieve (detailsRetrieveRequest tok) with
  | .ok j => .ok j
  | .invalidJson m => .error m
  | .httpError st body => .error ("Retrieve " ++ toString st ++ ": " ++ body)

/-- The whole network flow of `identify` (`app/details.jsx` lines
107-155), for a photo that was read and base64-encoded: create (with the
single documented retry), extract the token, retrieve when a token is
present, then normalize.  The first component is the trace of creation
request bodies. -/
def requestIdentification (env : ApiEnv) (uri : Option String) (b64 : String) :
    List (List String) × IdentifyOutcome :=
  match createPhase env.create b64 with
  | (trace, .error msg) => (trace, .failure msg)
  | (trace, .ok created) =>
    let full :=
      match extractToken created with
      | some tok => retrieveIdentification env tok
      | none => .ok created
    match full with
    | .error msg => (trace, .failure msg)
    | .ok fullJson => (trace, normalizeResponse uri fullJson)

/-- Fixture: a candidate labeled `"A"`. -/
def candA : Candidate :=
  { label := Json.str "A", sci := some (Json.str "A"), confidence := some (9/10)
  , details := Json.null, gallery := [] }

/-- Fixture: a candidate labeled `"B"`. -/
def candB : Candidate :=
  { label := Json.str "B", sci := some (Json.str "B"), confidence := some (1/2)
  , details := Json.null, gallery := [] }

/-- Fixture: a two-candidate result set showing the top candidate. -/
def promoteFixture : ResultSet :=
  { ordered := [candA, candB], currentIndex := 0 }

/-- Fixture: an endpoint that rejects the raw payload with HTTP 400 and
accepts the data-URI payload. -/
def createEnvRetry : List String → CreateResponse := fun imgs =>
  if imgs = ["img"] then CreateResponse.httpError 400 "bad payload"
  else CreateResponse.ok (Json.str "created")

/-- Fixture: an endpoint that always fails with HTTP 500 and a body that
happens to contain the text `"Create 400"`. -/
def createEnvTrap : List String → CreateResponse := fun _ =>
  CreateResponse.httpError 500 "see Create 400 in the docs"

/-- Fixture: a raw suggestion with a name and a numeric probability and
no similar images. -/
def ficusSuggestion : Json :=
  Json.obj [("name", Json.str "Ficus"), ("probability", Json.num (9/10))]

/-- Fixture: a retrieved response whose suggestion list is present but
empty. -/
def emptyListResponse : Json :=
  Json.obj [("result", Json.obj [("classification", Json.obj [("suggestions", Json.arr [])])])]

/-- Fixture: a creation response carrying a job token under `id`. -/
def tokenResponse : Json :=
  Json.obj [("id", Json.str "tok1")]

/-- Fixture: a raw suggestion whose probability is present but not
parseable as a number. -/
def unparseableSuggestion : Json :=
  Json.obj [("probability", Json.str "abc")]

theorem insertDesc_perm (x : Candidate) (l : List Candidate) :
    (insertDesc x l).Perm (x :: l) := by
  induction l with
  | nil => simp [insertDesc]
  | cons y ys ih =>
    by_cases h : confKey y ≤ confKey x
    · simp [insertDesc, h]
    · simp only [insertDesc, if_neg h]
      exact (ih.cons y).trans (List.Perm.swap x y ys)

theorem mem_insertDesc {x c : Candidate} {l : List Candidate} :
    c ∈ insertDesc x l ↔ c = x ∨ c ∈ l := by
  rw [(insertDesc_perm x l).mem_iff]
  simp

theorem sortCandidates_perm (l : List Candidate) : (sortCandidates l).Perm l := by
  induction l with
  | nil => simp [sortCandidates]
  | cons x xs ih => exact (insertDesc_perm x (sortCandidates xs)).trans (ih.cons x)

theorem pairwise_insertDesc {x : Candidate} {l : List Candidate}
    (h : l.Pairwise (fun a b => confKey b ≤ confKey a)) :
    (insertDesc x l).Pairwise (fun a b => confKey b ≤ confKey a) := by
  induction l with
  | nil => simp [insertDesc]
  | cons y ys ih =>
    rcases List.pairwise_cons.mp h with ⟨hy, hys⟩
    by_cases hxy : confKey y ≤ confKey x
    · simp only [insertDesc, if_pos hxy]
      refine List.pairwise_cons.mpr ⟨?_, h⟩
      intro b hb
      rcases List.mem_cons.mp hb with rfl | hb
      · exact hxy
      · exact le_trans (hy b hb) hxy
    · simp only [insertDesc, if_neg hxy]
      refine List.pairwise_cons.mpr ⟨?_, ih hys⟩
      intro b hb
      rcases mem_insertDesc.mp hb with rfl | hb
      · exact le_of_lt (lt_of_not_le hxy)
      · exact hy b hb

theorem sortCandidates_sorted (l : List Candidate) :
    (sortCandidates l).Pairwise (fun a b => confKey b ≤ confKey a) := by
  induction l with
  | nil => simp [sortCandidates]
  | cons x xs ih => exact pairwise_insertDesc ih

theorem insertDesc_split (x : Candidate) (l : List Candidate) :
    ∃ pre suf, insertDesc x l = pre ++ x :: suf ∧ l = pre ++ suf ∧
      ∀ y ∈ pre, confKey x < confKey y := by
  induction l with
  | nil => exact ⟨[], [], by simp [insertDesc], by simp, by simp⟩
  | cons y ys ih =>
    by_cases h : confKey y ≤ confKey x
    · exact ⟨[], y :: ys, by simp [insertDesc, h], by simp, by simp⟩
    · obtain ⟨pre, suf, h1, h2, h3⟩ := ih
      refine ⟨y :: pre, suf, ?_, ?_, ?_⟩
      · simp [insertDesc, h, h1]
      · simp [h2]
      · intro z hz
        rcases List.mem_cons.mp hz with rfl | hz
        · exact lt_of_not_le h
        · exact h3 z hz

theorem filter_insertDesc (p : Candidate → Bool)
    (hkey : ∀ a b, p a = true → p b = true → confKey a = confKey b)
    (x : Candidate) (l : List Candidate) :
    (insertDesc x l).filter p = (x :: l).filter p := by
  obtain ⟨pre, suf, h1, h2, h3⟩ := insertDesc_split x l
  rw [h1, h2]
  by_cases hx : p x
  · have hpre : pre.filter p = [] := by
      rw [List.filter_eq_nil_iff]
      intro a ha hpa
      have hk := hkey a x hpa hx
      have hlt := h3 a ha
      rw [hk] at hlt
      exact absurd hlt (lt_irrefl _)
    simp [List.filter_append, hpre, hx]
  · simp [List.filter_append, hx]

theorem filter_sortCandidates (p : Candidate → Bool)
    (hkey : ∀ a b, p a = true → p b = true → confKey a = confKey b)
    (l : List Candidate) :
    (sortCandidates l).filter p = l.filter p := by
  induction l with
  | nil => rfl
  | cons x xs ih =>
    rw [sortCandidates, filter_insertDesc p hkey x (sortCandidates xs)]
    by_cases hx : p x
    · simp [hx, ih]
    · simp [hx, ih]

theorem jsFindIndex_eq_neg_one {p : α → Bool} {l : List α}
    (h : ∀ a ∈ l, p a = false) : jsFindIndex p l = -1 := by
  induction l with
  | nil => rfl
  | cons a t ih =>
    have ha := h a (List.mem_cons_self a t)
    have ht := ih fun b hb => h b (List.mem_cons_of_mem a hb)
    simp [jsFindIndex, ha, ht]

theorem jsFindIndex_split {p : α → Bool} {l : List α}
    (h : ∃ a ∈ l, p a = true) :
    ∃ pre c post, l = pre ++ c :: post ∧ p c = true ∧ (∀ y ∈ pre, p y = false) ∧
      jsFindIndex p l = pre.length := by
  induction l with
  | nil => simp at h
  | cons a t ih =>
    by_cases ha : p a
    · exact ⟨[], a, t, rfl, ha, by simp, by simp [jsFindIndex, ha]⟩
    · have hrest : ∃ b ∈ t, p b = true := by
        obtain ⟨b, hb, hpb⟩ := h
        rcases List.mem_cons.mp hb with rfl | hb
        · exact absurd hpb (by simp [ha])
        · exact ⟨b, hb, hpb⟩
      obtain ⟨pre, c, post, h1, h2, h3, h4⟩ := ih hrest
      refine ⟨a :: pre, c, post, by simp [h1], h2, ?_, ?_⟩
      · intro y hy
        rcases List.mem_cons.mp hy with rfl | hy
        · simpa using ha
        · exact h3 y hy
      · have hnn : ¬ ((pre.length : ℤ) < 0) := by omega
        simp [jsFindIndex, ha, h4, hnn]

theorem isPrefixOf_append_self (l t : List Char) : l.isPrefixOf (l ++ t) = true := by
  induction l with
  | nil => simp [List.isPrefixOf]
  | cons c cs ih => simp [List.isPrefixOf, ih]

theorem containsSub_append_self (n rest : List Char) : containsSub n (n ++ rest) = true := by
  cases n with
  | nil =>
    cases rest with
    | nil => rfl
    | cons c t => simp [containsSub]
  | cons c cs =>
    have h := isPrefixOf_append_self (c :: cs) rest
    simp only [List.cons_append] at h
    simp [containsSub, h]

theorem createMessage_400_contains (body : String) :
    containsSubstr "Create 400" (createMessage 400 body) = true := by
  have h1 : createMessage 400 body = "Create 400: " ++ body := by
    have : "Create " ++ toString (400 : ℕ) ++ ": " = "Create 400: " := by decide
    rw [createMessage]
    rw [show "Create " ++ toString (400 : ℕ) ++ ": " ++ body
        = ("Create " ++ toString (400 : ℕ) ++ ": ") ++ body from rfl]
    rw [this]
  rw [h1, containsSubstr]
  have h2 : ("Create 400: " ++ body).toList = "Create 400".toList ++ (": " ++ body).toList := by
    show ("Create 400: " ++ body).data = "Create 400".data ++ (": " ++ body).data
    rw [String.data_append, String.data_append]
    rfl
  rw [h2]
  exact containsSub_append_self _ _

theorem applyHeroFallback_map_confidence (uri : Option String) (l : List Candidate) :
    (applyHeroFallback uri l).map (fun c => c.confidence) = l.map (fun c => c.confidence) := by
  cases l with
  | nil => cases uri <;> rfl
  | cons c rest =>
    cases uri with
    | none => rfl
    | some s =>
      by_cases h : (c.gallery.isEmpty && !s.isEmpty) = true
      · simp [applyHeroFallback, h]
      · simp [applyHeroFallback, h]

theorem applyHeroFallback_sorted (uri : Option String) (l : List Candidate)
    (h : l.Pairwise fun a b => confKey b ≤ confKey a) :
    (applyHeroFallback uri l).Pairwise fun a b => confKey b ≤ confKey a := by
  cases l with
  | nil => cases uri <;> simp [applyHeroFallback]
  | cons c rest =>
    cases uri with
    | none => simpa [applyHeroFallback] using h
    | some s =>
      by_cases hc : (c.gallery.isEmpty && !s.isEmpty) = true
      · simp only [applyHeroFallback, if_pos hc]
        rcases List.pairwise_cons.mp h with ⟨h1, h2⟩
        refine List.pairwise_cons.mpr ⟨?_, h2⟩
        intro b hb
        exact h1 b hb
      · simpa [applyHeroFallback, hc] using h

/-- C1: the `ResultSet` built by `requestIdentification` is sorted by
non-increasing confidence — stated with the comparator's own key
`confKey` (`x.confidence || 0`), which agrees with the confidence value
whenever that value is an actual number — and candidates of equal
confidence keep the relative order they had in the input suggestion
list (the filtered subsequence at each confidence value is unchanged by
the sort).  The hero-gallery fallback changes no confidence. -/
theorem requestIdentification_sorted_stable (uri : Option String) (suggestions : List Json) :
    ((buildResultSet uri suggestions).ordered.Pairwise fun a b => confKey b ≤ confKey a) ∧
    (∀ q : Option ℚ,
      (sortCandidates (suggestions.map mapSuggestion)).filter (fun c => c.confidence == q)
        = (suggestions.map mapSuggestion).filter (fun c => c.confidence == q)) ∧
    (buildResultSet uri suggestions).ordered.map (fun c => c.confidence)
      = (sortCandidates (suggestions.map mapSuggestion)).map (fun c => c.confidence) := by
  refine ⟨?_, ?_, ?_⟩
  · exact applyHeroFallback_sorted uri _ (sortCandidates_sorted _)
  · intro q
    refine filter_sortCandidates _ ?_ _
    intro a b ha hb
    have ha' : a.confidence = q := eq_of_beq ha
    have hb' : b.confidence = q := eq_of_beq hb
    rw [confKey, confKey, ha', hb']
  · exact applyHeroFallback_map_confidence uri _

/-- C2, counterexample: a present probability that does not parse as a
number (here the string `"abc"`) is coerced by `Number(...)` to `NaN`
(`none`), not to `0.0` as the claim states. -/
theorem mapped_confidence_counterexample :
    (mapSuggestion unparseableSuggestion).confidence ≠ some 0 ∧
    (mapSuggestion unparseableSuggestion).confidence = none := by
  constructor
  · decide
  · decide

/-- C2, amended: a missing or `null` probability is coerced to exactly
`0.0` (the `?? 0` default); a present probability is coerced with
JavaScript `Number(...)`, which yields `NaN` — not `0.0` — on a value
that is unparseable as a number. -/
theorem mapped_confidence_amended :
    (∀ s : Json, denull (optChain (some s) "probability") = none →
      (mapSuggestion s).confidence = some 0) ∧
    (∀ s v, denull (optChain (some s) "probability") = some v →
      (mapSuggestion s).confidence = jsNumber v) ∧
    (∀ t : String, parseNumberString t = none → jsNumber (Json.str t) = none) := by
  refine ⟨?_, ?_, ?_⟩
  · intro s h
    simp [mapSuggestion, nullishCoalesce, h, jsNumber]
  · intro s v h
    simp [mapSuggestion, nullishCoalesce, h]
  · intro t h
    simpa [jsNumber] using h

/-- C2, witness for the amended statement. -/
theorem mapped_confidence_amended_witness :
    (mapSuggestion (Json.obj [])).confidence = some 0 ∧
    (mapSuggestion unparseableSuggestion).confidence = none := by
  constructor
  · exact mapped_confidence_amended.1 (Json.obj []) (by decide)
  · have h2 := mapped_confidence_amended.2.1 unparseableSuggestion (Json.str "abc") (by decide)
    have h3 := mapped_confidence_amended.2.2 "abc" (by decide)
    rw [h2, h3]

/-- C3, counterexample: the retry is keyed on the substring
`"Create 400"` of the thrown message, not on the status code.  Here the
first creation request fails with HTTP 500 — not 400 — whose body
contains that text, and a second (retry) request is still issued, so a
non-400 failure is not always propagated immediately. -/
theorem create_retry_counterexample :
    createEnvTrap ["img"] = CreateResponse.httpError 500 "see Create 400 in the docs" ∧
    (500 : ℕ) ≠ 400 ∧
    (createPhase createEnvTrap "img").1 = [["img"], [dataUriPrefixed "img"]] := by
  refine ⟨rfl, by decide, ?_⟩
  decide

/-- C3, amended: the creation request is first sent with the raw base64
payload; a single retry with the data-URI payload is made exactly when
the thrown message contains the substring `"Create 400"` — which is
always the case for an HTTP 400 failure, whose message is
`"Create 400: <body>"` — and the retry's own outcome, success or
failure, is final; a failure whose message lacks that substring is
propagated immediately with no retry. -/
theorem create_retry_amended (env : List String → CreateResponse) (b64 : String) :
    (∀ j, env [b64] = CreateResponse.ok j →
      createPhase env b64 = ([[b64]], Except.ok j)) ∧
    (∀ body, env [b64] = CreateResponse.httpError 400 body →
      createPhase env b64 =
        ([[b64], [dataUriPrefixed b64]], createIdentification (env [dataUriPrefixed b64]))) ∧
    (∀ msg, createIdentification (env [b64]) = Except.error msg →
      containsSubstr "Create 400" msg = false →
      createPhase env b64 = ([[b64]], Except.error msg)) := by
  refine ⟨?_, ?_, ?_⟩
  · intro j h
    simp [createPhase, h, createIdentification]
  · intro body h
    have hmsg : createIdentification (env [b64]) = .error (createMessage 400 body) := by
      rw [h]
      rfl
    simp [createPhase, hmsg, createMessage_400_contains body]
  · intro msg h hns
    simp [createPhase, h, hns]

/-- C3, witness for the amended statement: a first attempt rejected with
HTTP 400 is followed by exactly one data-URI retry whose success is
returned. -/
theorem create_retry_amended_witness :
    createPhase createEnvRetry "img"
      = ([["img"], [dataUriPrefixed "img"]], Except.ok (Json.str "created")) := by
  have h := (create_retry_amended createEnvRetry "img").2.1 "bad payload" (by decide)
  rw [h]
  have henv : createEnvRetry [dataUriPrefixed "img"] = CreateResponse.ok (Json.str "created") := by
    decide
  rw [henv]
  rfl

/-- C4: when the suggestion list — looked up first at
`result.classification.suggestions`, then at
`result.is_plant.classification.suggestions` — is missing (both paths
nullish) or is an empty array, the flow takes the non-error
`noMatches` outcome, which sets the ordered list to `[]` and
`currentIndex` to `0`. -/
theorem no_matches_empty (uri : Option String) (full : Json)
    (h : (denull (suggestionsPathA full) = none ∧ denull (suggestionsPathB full) = none) ∨
      lookupSuggestions full = Json.arr []) :
    normalizeResponse uri full = IdentifyOutcome.noMatches := by
  have hempty : lookupSuggestions full = Json.arr [] := by
    rcases h with ⟨h1, h2⟩ | h
    · rw [lookupSuggestions, h1, h2]
    · exact h
  simp [normalizeResponse, hempty, jsLengthTruthy]

/-- C4, witness: a response with a present but empty suggestion list. -/
theorem no_matches_empty_witness :
    normalizeResponse none emptyListResponse = IdentifyOutcome.noMatches :=
  no_matches_empty none emptyListResponse (Or.inr (by decide))

/-- C5: promoting a label that occurs in the `ResultSet` sets
`currentIndex` to the position of the first candidate whose label
matches (the length of the prefix of non-matching candidates) and
leaves the ordered candidate list unchanged. -/
theorem promote_found (rs : ResultSet) (label : Json)
    (h : ∃ c ∈ rs.ordered, c.label = label) :
    ∃ pre c post, rs.ordered = pre ++ c :: post ∧ c.label = label ∧
      (∀ y ∈ pre, y.label ≠ label) ∧
      promote rs label = { ordered := rs.ordered, currentIndex := pre.length } := by
  have h' : ∃ c ∈ rs.ordered, (fun c => c.label == label) c = true := by
    obtain ⟨c, hc, hlbl⟩ := h
    exact ⟨c, hc, by simp [hlbl]⟩
  obtain ⟨pre, c, post, h1, h2, h3, h4⟩ := jsFindIndex_split h'
  refine ⟨pre, c, post, h1, by simpa using h2, ?_, ?_⟩
  · intro y hy
    simpa [beq_eq_false_iff_ne] using h3 y hy
  · have hnn : (0 : ℤ) ≤ (pre.length : ℤ) := by omega
    simp [promote, h4, hnn]

/-- C5, witness: promoting the second label of a two-candidate set. -/
theorem promote_found_witness :
    ∃ pre c post, promoteFixture.ordered = pre ++ c :: post ∧ c.label = Json.str "B" ∧
      (∀ y ∈ pre, y.label ≠ Json.str "B") ∧
      promote promoteFixture (Json.str "B")
        = { ordered := promoteFixture.ordered, currentIndex := pre.length } :=
  promote_found promoteFixture (Json.str "B") (by decide)

/-- C6: promoting a label that occurs in none of the candidates leaves
the `ResultSet` entirely unchanged — same candidate list and same
`currentIndex` — and raises no error (`findIndex` returns `-1` and the
guarded branch is skipped). -/
theorem promote_missing (rs : ResultSet) (label : Json)
    (h : ∀ c ∈ rs.ordered, c.label ≠ label) : promote rs label = rs := by
  have h' : ∀ c ∈ rs.ordered, (fun c => c.label == label) c = false := by
    intro c hc
    simpa [beq_eq_false_iff_ne] using h c hc
  have h4 := jsFindIndex_eq_neg_one h'
  simp only [promote, h4]
  rw [if_neg (by decide)]

/-- C6, witness: promoting an absent label is a no-op. -/
theorem promote_missing_witness :
    promote promoteFixture (Json.str "Z") = promoteFixture :=
  promote_missing promoteFixture (Json.str "Z") (by decide)

/-- C7: when the sorted candidate list is non-empty, its top candidate
has an empty gallery, and a (truthy) photo reference was supplied, the
returned ordered list is the top candidate with its gallery replaced by
exactly `[photoReference]`, followed by the remaining candidates
untouched. -/
theorem hero_fallback (uri : Option String) (s : String) (suggestions : List Json)
    (c : Candidate) (rest : List Candidate)
    (hsorted : sortCandidates (suggestions.map mapSuggestion) = c :: rest)
    (hgal : c.gallery = [])
    (huri : uri = some s) (hs : s ≠ "") :
    (buildResultSet uri suggestions).ordered = { c with gallery := [Json.str s] } :: rest := by
  subst huri
  show applyHeroFallback (some s) (sortCandidates (suggestions.map mapSuggestion)) = _
  rw [hsorted]
  have hse : s.isEmpty = false :=
    Bool.eq_false_iff.mpr (fun hemp => hs ((String.isEmpty_iff s).mp hemp))
  have hcond : (c.gallery.isEmpty && !s.isEmpty) = true := by
    simp [hgal, hse]
  simp [applyHeroFallback, hcond]

/-- C7, witness: a single suggestion with no similar images and a
supplied photo reference. -/
theorem hero_fallback_witness :
    (buildResultSet (some "file://p.jpg") [ficusSuggestion]).ordered
      = [{ mapSuggestion ficusSuggestion with gallery := [Json.str "file://p.jpg"] }] :=
  hero_fallback (some "file://p.jpg") "file://p.jpg" [ficusSuggestion]
    (mapSuggestion ficusSuggestion) [] rfl rfl rfl (by decide)

/-- C8: with no watering range the badge is `"Moderate to Care"`;
otherwise, with `avg = (min + max) / 2`, the badge is `"Easy Care"` for
`avg ≤ 0.25` (inclusive), `"Moderate to Care"` for
`0.25 < avg ≤ 0.55` (inclusive), and `"Thirsty"` for `avg > 0.55`. -/
theorem care_level_thresholds :
    careBadge none = "Moderate to Care" ∧
    ∀ mn mx : ℚ,
      ((mn + mx) / 2 ≤ 0.25 →
        careBadge (some { min := some mn, max := some mx }) = "Easy Care") ∧
      (0.25 < (mn + mx) / 2 → (mn + mx) / 2 ≤ 0.55 →
        careBadge (some { min := some mn, max := some mx }) = "Moderate to Care") ∧
      (0.55 < (mn + mx) / 2 →
        careBadge (some { min := some mn, max := some mx }) = "Thirsty") := by
  refine ⟨rfl, ?_⟩
  intro mn mx
  refine ⟨?_, ?_, ?_⟩
  · intro h
    simp only [careBadge, Option.getD_some]
    rw [if_pos h]
  · intro h1 h2
    simp only [careBadge, Option.getD_some]
    rw [if_neg (not_le.mpr h1), if_pos h2]
  · intro h
    have h1 : (0.25 : ℚ) < (mn + mx) / 2 := lt_trans (by norm_num) h
    simp only [careBadge, Option.getD_some]
    rw [if_neg (not_le.mpr h1), if_neg (not_le.mpr h)]

/-- C8, witness: the four boundary averages named by the claim. -/
theorem care_level_thresholds_witness :
    careBadge (some { min := some 0.25, max := some 0.25 }) = "Easy Care" ∧
    careBadge (some { min := some 0.26, max := some 0.26 }) = "Moderate to Care" ∧
    careBadge (some { min := some 0.55, max := some 0.55 }) = "Moderate to Care" ∧
    careBadge (some { min := some 0.56, max := some 0.56 }) = "Thirsty" :=
  ⟨(care_level_thresholds.2 0.25 0.25).1 (by norm_num),
   (care_level_thresholds.2 0.26 0.26).2.1 (by norm_num) (by norm_num),
   (care_level_thresholds.2 0.55 0.55).2.1 (by norm_num) (by norm_num),
   (care_level_thresholds.2 0.56 0.56).2.2 (by norm_num)⟩

/-- C9, counterexample: for a creation response carrying a job token,
the result screen's retrieval (`app/result.jsx`) requests the language
`"da"`, not English, contradicting the claim for that cited code
path. -/
theorem retrieval_language_counterexample :
    (resultRetrievePhase tokenResponse).map (fun r => r.language) = some "da" ∧
    "da" ≠ "en" := by
  constructor
  · rfl
  · decide

/-- C9, amended: whenever a job token is extracted (a truthy `id`
checked before `access_token`), the details screen's follow-up
retrieval requests English (`"en"`), while the result screen's requests
Danish (`"da"`); in both, a truthy `id` field takes precedence as the
token. -/
theorem retrieval_language_amended (created : Json) (tok : Json)
    (h : extractToken created = some tok) :
    detailsRetrievePhase created = some (detailsRetrieveRequest tok) ∧
    (detailsRetrieveRequest tok).language = "en" ∧
    resultRetrievePhase created = some (resultRetrieveRequest tok) ∧
    (resultRetrieveRequest tok).language = "da" ∧
    (∀ i, optChain (some created) "id" = some i → jsTruthy i = true → tok = i) := by
  refine ⟨?_, rfl, ?_, rfl, ?_⟩
  · rw [detailsRetrievePhase, h]
    rfl
  · rw [resultRetrievePhase, h]
    rfl
  · intro i hi ht
    have h' := h
    simp [extractToken, jsOr, hi, ht] at h'
    exact h'.symm

/-- C9, witness for the amended statement. -/
theorem retrieval_language_amended_witness :
    detailsRetrievePhase tokenResponse = some (detailsRetrieveRequest (Json.str "tok1")) ∧
    (detailsRetrieveRequest (Json.str "tok1")).language = "en" ∧
    resultRetrievePhase tokenResponse = some (resultRetrieveRequest (Json.str "tok1")) ∧
    (resultRetrieveRequest (Json.str "tok1")).language = "da" ∧
    (∀ i, optChain (some tokenResponse) "id" = some i → jsTruthy i = true →
      Json.str "tok1" = i) :=
  retrieval_language_amended tokenResponse (Json.str "tok1") (by decide)

/-- C10: a watering range with a missing (or `null`) `min` or `max`
bound is averaged with `0.5` substituted for the missing bound — the
`?? 0.5` defaults — rather than being treated as an absent range; in
particular `watering = {max: 0.2}` averages to `0.35` and yields
`"Moderate to Care"`. -/
theorem care_level_missing_bound :
    (∀ mx : ℚ, careBadge (some { min := none, max := some mx })
        = careBadge (some { min := some 0.5, max := some mx })) ∧
    (∀ mn : ℚ, careBadge (some { min := some mn, max := none })
        = careBadge (some { min := some mn, max := some 0.5 })) ∧
    careBadge (some { min := none, max := some 0.2 }) = "Moderate to Care" := by
  refine ⟨fun mx => rfl, fun mn => rfl, ?_⟩
  simp only [careBadge, Option.getD_some, Option.getD_none]
  rw [if_neg (by norm_num), if_pos (by norm_num)]
